import Mathlib

/-!
Shallow embedding of the requirement-tracking client (`src/unnamed/part_000`).

The program is a single-page React client over a remote Firestore document
store.  The embedding models the persisted documents (projects and user
profiles), the five mutation handlers defined in the `RequirementSystemPro`
component (`handleCreateProject`, `handleUpdateStatus`, `handleAddFile`,
`handleDeleteProject`, `handleUpdateProfile`), the snapshot sort performed in
the projects subscription callback, the dashboard projection, the auth
bootstrap (`initAuth` and the default-profile branch of the auth listener),
and the structure of subscription acquisition/release in the two effects.

Server timestamps are modelled by an explicit `Timestamp` value passed to each
handler (Firestore resolves every `serverTimestamp()` sentinel of one write to
the same server time).  Client-side values that the source obtains from the
environment (`crypto.randomUUID()`, `new Date().toISOString()`, the transport
outcome of a write) are likewise passed as parameters.
-/

/-- A Firestore timestamp, reduced to its `seconds` field (the only component
the source ever reads: `updatedAt?.seconds`). -/
structure Timestamp where
  seconds : Int
deriving DecidableEq, Repr

/-- A file attachment as written by `handleAddFile`:
`{...fileData, id: crypto.randomUUID(), addedBy: user.uid, addedAt: new Date().toISOString()}`. -/
structure FileAttachment where
  id : String
  name : String
  url : String
  format : String
  addedBy : String
  addedAt : String
deriving DecidableEq, Repr

/-- A project document, shape `projects/{id}` as written by
`handleCreateProject`. -/
structure Project where
  id : String
  title : String
  description : String
  status : String
  createdBy : String
  createdAt : Option Timestamp
  updatedAt : Option Timestamp
  inputs : List FileAttachment
  outputs : List FileAttachment
  comments : List String
deriving DecidableEq, Repr

/-- The authenticated session identity (`user` state: the Firebase auth
user); only its `uid` is read by the handlers. -/
structure UserAuth where
  uid : String
deriving DecidableEq, Repr

/-- A user profile document, shape `users/{uid}` as written by the default
profile branch of the auth listener. -/
structure Profile where
  uid : String
  name : String
  role : String
  avatar : String
  joinedAt : Option Timestamp
deriving DecidableEq, Repr

/-- The `{ title, description }` pair passed to `handleCreateProject` from
the create form (`newProject` state). -/
structure CreateData where
  title : String
  description : String
deriving DecidableEq, Repr

/-- The `{ name, url, format }` object passed to `handleAddFile` by
`handleFileSubmit` in `ProjectDetailView`. -/
structure FileData where
  name : String
  url : String
  format : String
deriving DecidableEq, Repr

/-- The dynamic field name `type` of `handleAddFile`; the source only ever
passes the strings `'inputs'` and `'outputs'` (the `uploadType` state). -/
inductive ListName where
  | inputs
  | outputs
deriving DecidableEq, Repr

/-- Dynamic field read `selectedProject[type]`. -/
def Project.getList (p : Project) : ListName → List FileAttachment
  | ListName.inputs => p.inputs
  | ListName.outputs => p.outputs

/-- Dynamic field write `updateDoc(ref, { [type]: l })`. -/
def Project.setList (p : Project) : ListName → List FileAttachment → Project
  | ListName.inputs, l => { p with inputs := l }
  | ListName.outputs, l => { p with outputs := l }

/-- `updatedAt: serverTimestamp()` part of an update. -/
def Project.touch (p : Project) (t : Timestamp) : Project :=
  { p with updatedAt := some t }

/-- The `newFile` object built inside `handleAddFile`. -/
def mkNewFile (fd : FileData) (fileId uid isoNow : String) : FileAttachment :=
  { id := fileId, name := fd.name, url := fd.url, format := fd.format,
    addedBy := uid, addedAt := isoNow }

/-- `handleCreateProject(data)`: guarded by `if (!user) return;`, then
`addDoc` of `{...data, createdBy, createdAt, updatedAt, status:'pending',
inputs:[], outputs:[], comments:[]}`.  The server-assigned document id and
the server time are parameters. -/
def handleCreateProject (user : Option UserAuth) (data : CreateData)
    (newId : String) (t : Timestamp) (store : List Project) : List Project :=
  match user with
  | none => store
  | some u =>
      store ++ [{ id := newId, title := data.title, description := data.description,
                  status := "pending", createdBy := u.uid,
                  createdAt := some t, updatedAt := some t,
                  inputs := [], outputs := [], comments := [] }]

/-- `handleUpdateStatus(projectId, newStatus)`: guarded by `if (!user) return;`,
then `updateDoc(projectRef, { status: newStatus, updatedAt: serverTimestamp() })`.
The document reference addresses the project by id. -/
def handleUpdateStatus (user : Option UserAuth) (projectId newStatus : String)
    (t : Timestamp) (store : List Project) : List Project :=
  match user with
  | none => store
  | some _ =>
      store.map (fun p =>
        if p.id == projectId then { p with status := newStatus, updatedAt := some t }
        else p)

/-- `handleAddFile(projectId, fileData, type)`: guarded by
`if (!selectedProject || !user) return;` (a silent early return), then builds
`newFile`, reads the list from the locally cached `selectedProject`
(`const currentList = selectedProject[type] || []`), and issues
`updateDoc(projectRef, { [type]: [...currentList, newFile], updatedAt })`.
`writeOk` models the transport outcome of that `updateDoc`: the `catch`
block raises the alert `"添加文件失败"` and leaves the store unchanged.
Note that the cached `selectedProject` — not the store's current document —
supplies `currentList`. -/
def handleAddFile (selectedProject : Option Project) (user : Option UserAuth)
    (projectId : String) (fileData : FileData) (ty : ListName)
    (fileId isoNow : String) (t : Timestamp) (writeOk : Bool)
    (store : List Project) : List Project × Option String :=
  match selectedProject, user with
  | some sel, some u =>
      let newFile := mkNewFile fileData fileId u.uid isoNow
      let currentList := sel.getList ty
      if writeOk then
        (store.map (fun p =>
          if p.id == projectId then (p.setList ty (currentList ++ [newFile])).touch t
          else p), none)
      else (store, some "添加文件失败")
  | _, _ => (store, none)

/-- `handleDeleteProject(projectId)`: guarded by `if (!user) return;` and the
`confirm(...)` dialog (parameter `confirmed`), then `deleteDoc` of the project
document and `if (selectedProject?.id === projectId) setSelectedProject(null)`.
No role is consulted anywhere in the handler. -/
def handleDeleteProject (user : Option UserAuth) (confirmed : Bool)
    (projectId : String) (store : List Project) (selectedProject : Option Project) :
    List Project × Option Project :=
  match user with
  | none => (store, selectedProject)
  | some _ =>
      if confirmed then
        (store.filter (fun p => p.id != projectId),
         match selectedProject with
         | some sp => if sp.id == projectId then none else some sp
         | none => none)
      else (store, selectedProject)

/-- `handleUpdateProfile(name, role)`: guarded by `if (!user) return;`, then
`updateDoc(userRef, { name, role })` on `users/{user.uid}`. -/
def handleUpdateProfile (user : Option UserAuth) (name role : String)
    (users : List Profile) : List Profile :=
  match user with
  | none => users
  | some u =>
      users.map (fun pr =>
        if pr.uid == u.uid then { pr with name := name, role := role } else pr)

/-- The render-layer gate in `ProjectDetailView`: the delete control is
rendered only under `currentUser?.role === 'MANAGER'`. -/
def deleteControlRendered (currentUser : Option Profile) : Bool :=
  match currentUser with
  | some pr => pr.role == "MANAGER"
  | none => false

/-- The delete path through the detail view: `handleDeleteProject` is wired
only to the delete button, which exists only when `deleteControlRendered`;
otherwise no delete call is issued at all. -/
def detailViewDelete (currentUser : Option Profile) (user : Option UserAuth)
    (confirmed : Bool) (projectId : String) (store : List Project)
    (selectedProject : Option Project) : List Project × Option Project :=
  if deleteControlRendered currentUser then
    handleDeleteProject user confirmed projectId store selectedProject
  else (store, selectedProject)

/-- The sort key of the projects snapshot callback:
`updatedAt?.seconds || 0` (a missing timestamp contributes `0`; a present
timestamp contributes its `seconds`, which is also `0` when `seconds` is `0`). -/
def snapKey (p : Project) : Int :=
  match p.updatedAt with
  | some t => t.seconds
  | none => 0

/-- One insertion step of a stable descending sort by `snapKey`: the new
element is placed before the first strictly smaller key, after equal keys. -/
def insertByKeyDesc (p : Project) : List Project → List Project
  | [] => [p]
  | q :: qs => if snapKey q < snapKey p then p :: q :: qs else q :: insertByKeyDesc p qs

/-- The projects snapshot callback:
`projs.sort((a, b) => (b.updatedAt?.seconds || 0) - (a.updatedAt?.seconds || 0))`,
i.e. a stable sort descending by `snapKey` (JavaScript `Array.prototype.sort`
is stable), modelled as a stable insertion sort. -/
def refreshProjects (docs : List Project) : List Project :=
  docs.foldl (fun acc p => insertByKeyDesc p acc) []

/-- Descending sortedness by `snapKey`. -/
def SortedDesc (l : List Project) : Prop :=
  l.Pairwise (fun a b => snapKey b ≤ snapKey a)

/-- The `stats` memo of `DashboardView`. -/
structure Stats where
  total : Nat
  pending : Nat
  inProgress : Nat
  completed : Nat
deriving DecidableEq, Repr

/-- `DashboardView`'s `stats` derivation from the live `projects` list. -/
def dashboardStats (projects : List Project) : Stats :=
  { total := projects.length
    pending := (projects.filter (fun p => p.status == "pending")).length
    inProgress := (projects.filter (fun p =>
      p.status == "in_progress" || p.status == "review")).length
    completed := (projects.filter (fun p => p.status == "completed")).length }

/-- The recent-activity feed of `DashboardView`: `projects.slice(0, 4)`. -/
def recentFeed (projects : List Project) : List Project :=
  projects.take 4

/-- Outcome of the auth bootstrap. -/
inductive AuthOutcome where
  | customIdentity
  | anonIdentity
  | noIdentity
deriving DecidableEq, Repr

/-- `typeof __initial_auth_token !== 'undefined' && __initial_auth_token`:
the bootstrap token is used only when it is defined and truthy (a non-empty
string). -/
def bootstrapProvided : Option String → Bool
  | none => false
  | some s => !(s == "")

/-- `initAuth`: try the bootstrap credential first when provided, otherwise
sign in anonymously; on any failure of the `try` block, the `catch` block
attempts an anonymous sign-in (whose own failure is only logged).
`customOk` is the outcome of `signInWithCustomToken`; `anonTryOk` the outcome
of the `signInAnonymously` inside the `try`; `anonCatchOk` the outcome of the
`signInAnonymously` inside the `catch`. -/
def initAuth (token : Option String) (customOk anonTryOk anonCatchOk : Bool) :
    AuthOutcome :=
  if bootstrapProvided token then
    if customOk then AuthOutcome.customIdentity
    else if anonCatchOk then AuthOutcome.anonIdentity
    else AuthOutcome.noIdentity
  else
    if anonTryOk then AuthOutcome.anonIdentity
    else if anonCatchOk then AuthOutcome.anonIdentity
    else AuthOutcome.noIdentity

/-- The `defaultProfile` object created by the auth listener when the profile
document does not exist:
`{ uid, name: ⟨"User-" + uid.substring(0,4)⟩, role: 'GUEST',
avatar: dicebear URL seeded by uid, joinedAt: serverTimestamp() }`. -/
def defaultProfile (uid : String) (t : Timestamp) : Profile :=
  { uid := uid
    name := "User-" ++ uid.take 4
    role := "GUEST"
    avatar := "https://api.dicebear.com/7.x/avataaars/svg?seed=" ++ uid
    joinedAt := some t }

/-- The profile branch of the auth listener's `onSnapshot(userRef, ...)`
callback: keep the existing document if present, otherwise create (and use)
the default profile. -/
def ensureProfile (uid : String) (existing : Option Profile) (t : Timestamp) :
    Profile :=
  match existing with
  | some p => p
  | none => defaultProfile uid t

/-- The standing subscriptions the component can acquire. -/
inductive SubKind where
  | authListener
  | profileDoc
  | projectsCol
  | usersCol
  | openProjectDoc
deriving DecidableEq, Repr

/-- Subscriptions acquired by the auth effect (source lines 139–186): the
`onAuthStateChanged` listener at effect start, and — once a signed-in user is
delivered to the callback — the `onSnapshot(userRef, ...)` profile-document
subscription. -/
def authEffectAcquired (userArrived : Bool) : List SubKind :=
  if userArrived then [SubKind.authListener, SubKind.profileDoc]
  else [SubKind.authListener]

/-- Subscriptions released by the auth effect's cleanup
(`return () => unsubscribe();`): only the auth listener.  The return value of
the profile-document `onSnapshot` is discarded at its call site, so no handle
to release it exists anywhere. -/
def authEffectReleased : List SubKind := [SubKind.authListener]

/-- Subscriptions acquired by the data effect (source lines 189–215): the
projects and users collection subscriptions, only once `user` is non-null. -/
def dataEffectAcquired (hasUser : Bool) : List SubKind :=
  if hasUser then [SubKind.projectsCol, SubKind.usersCol] else []

/-- Subscriptions released by the data effect's cleanup
(`return () => { unsubProjects(); unsubUsers(); };`). -/
def dataEffectReleased (hasUser : Bool) : List SubKind :=
  if hasUser then [SubKind.projectsCol, SubKind.usersCol] else []

/-! Concrete documents and inputs used by the evaluation theorems below. -/

/-- A session identity. -/
def uA : UserAuth := { uid := "u1" }

/-- A second session identity (another client). -/
def uB : UserAuth := { uid := "u2" }

/-- A freshly created project, exactly as `handleCreateProject` writes it. -/
def projP : Project :=
  { id := "p1", title := "T", description := "D", status := "pending",
    createdBy := "u1", createdAt := some { seconds := 1 }, updatedAt := some { seconds := 1 },
    inputs := [], outputs := [], comments := [] }

/-- File data f. -/
def fdF : FileData := { name := "f", url := "https://example.com/f", format := "doc" }

/-- File data g. -/
def fdG : FileData := { name := "g", url := "https://example.com/g", format := "doc" }

/-- File data h. -/
def fdH : FileData := { name := "h", url := "https://example.com/h", format := "doc" }

/-- A profile whose role is not Manager. -/
def guestProfile : Profile :=
  { uid := "u1", name := "Guest One", role := "GUEST",
    avatar := "https://api.dicebear.com/7.x/avataaars/svg?seed=u1",
    joinedAt := some { seconds := 1 } }

/-- Store after the client (holding the cached copy `projP`, whose `inputs`
is `[]`) appends `f` to `inputs` of `p1`. -/
def c1Store1 : List Project :=
  (handleAddFile (some projP) (some uA) "p1" fdF ListName.inputs
    "file-f" "t1" { seconds := 2 } true [projP]).1

/-- Store after the same client — whose cached `selectedProject` is still the
original `projP`, because nothing in the source ever refreshes the
`selectedProject` state after a write — appends `g` to `inputs` of `p1`. -/
def c1Store2 : List Project :=
  (handleAddFile (some projP) (some uA) "p1" fdG ListName.inputs
    "file-g" "t2" { seconds := 3 } true c1Store1).1

/-- Claim C1, evaluated at the failing input: a single client opens project
`p1` (cached `selectedProject = projP`, `inputs = []`) and calls
`appendFile(p1,'inputs',f)` and then `appendFile(p1,'inputs',g)` with no
other writers.  After the first call the stored `inputs` names are `["f"]`;
after the second call they are `["g"]`, not `["f","g"]`: the second call read
the stale cached list `[]` and its whole-list write overwrote the first
append. -/
theorem appendFile_second_overwrites_first :
    c1Store1.map (fun p => p.inputs.map FileAttachment.name) = [["f"]] ∧
    c1Store2.map (fun p => p.inputs.map FileAttachment.name) = [["g"]] := by
  decide

/-- Claim C2, counterexample to the claim as stated: a requesting user whose
profile role is `GUEST` (not Manager) invokes `handleDeleteProject` directly
(signed in, confirmation accepted) and the project document is removed — the
handler consults no role at all before `deleteDoc`. -/
theorem deleteProject_no_role_check :
    guestProfile.role ≠ "MANAGER" ∧ guestProfile.uid = uA.uid ∧
    handleDeleteProject (some uA) true "p1" [projP] (some projP) = ([], none) := by
  decide

/-- Claim C2 (amended): the role check exists only in the render layer —
`ProjectDetailView` renders the delete control only when the current user's
role is `MANAGER` — so a delete issued through the detail view by a user
whose role is not Manager leaves the store (and the selection) unchanged. -/
theorem detailView_delete_requires_manager (pr : Profile)
    (hrole : pr.role ≠ "MANAGER") (user : Option UserAuth) (confirmed : Bool)
    (projectId : String) (store : List Project) (sel : Option Project) :
    detailViewDelete (some pr) user confirmed projectId store sel = (store, sel) := by
  have hb : (pr.role == "MANAGER") = false := beq_eq_false_iff_ne.mpr hrole
  simp [detailViewDelete, deleteControlRendered, hb]

/-- Witness for C2's amended theorem at a concrete non-Manager profile. -/
theorem detailView_delete_requires_manager_witness :
    detailViewDelete (some guestProfile) (some uA) true "p1" [projP] (some projP)
      = ([projP], some projP) :=
  detailView_delete_requires_manager guestProfile (by decide) (some uA) true "p1"
    [projP] (some projP)

/-- Claim C3: for every title/description input and every resolved identity,
`handleCreateProject` appends a project whose `status` is `"pending"`, whose
`inputs` and `outputs` are both empty, and whose `createdAt` equals
`updatedAt` (both `serverTimestamp()` sentinels of the same write). -/
theorem handleCreateProject_fields (u : UserAuth) (d : CreateData)
    (newId : String) (t : Timestamp) (store : List Project) :
    ∃ q, handleCreateProject (some u) d newId t store = store ++ [q] ∧
      q.status = "pending" ∧ q.inputs = [] ∧ q.outputs = [] ∧
      q.createdAt = q.updatedAt :=
  ⟨_, rfl, rfl, rfl, rfl, rfl⟩

/-- Project `id:1` of the C7 snapshot. -/
def c7P1 : Project :=
  { id := "1", title := "one", description := "", status := "completed",
    createdBy := "u1", createdAt := some { seconds := 100 },
    updatedAt := some { seconds := 100 }, inputs := [], outputs := [], comments := [] }

/-- Project `id:2` of the C7 snapshot. -/
def c7P2 : Project :=
  { id := "2", title := "two", description := "", status := "pending",
    createdBy := "u2", createdAt := some { seconds := 50 },
    updatedAt := some { seconds := 50 }, inputs := [], outputs := [], comments := [] }

/-- Claim C7: on the snapshot `[{id:1,status:'completed',updatedAt:100},
{id:2,status:'pending',updatedAt:50}]`, the projection layer (dashboard stats
and activity feed over the refreshed projects list) reports `total = 2`,
`pending = 1`, `completed = 1`, and orders the feed as `[id:1, id:2]`. -/
theorem projection_on_c7_snapshot :
    (dashboardStats (refreshProjects [c7P1, c7P2])).total = 2 ∧
    (dashboardStats (refreshProjects [c7P1, c7P2])).pending = 1 ∧
    (dashboardStats (refreshProjects [c7P1, c7P2])).completed = 1 ∧
    (recentFeed (refreshProjects [c7P1, c7P2])).map Project.id = ["1", "2"] := by
  decide

/-- Claim C8, evaluated at the failing input (a signed-in user arrives at the
auth listener): the profile-document subscription is acquired by the auth
effect but is absent from everything that effect's cleanup releases — its
unsubscribe handle is discarded at the `onSnapshot(userRef, ...)` call site —
while both data-effect subscriptions are matched by releases and no
per-open-project document subscription is ever acquired. -/
theorem profileDoc_subscription_never_released :
    SubKind.profileDoc ∈ authEffectAcquired true ∧
    SubKind.profileDoc ∉ authEffectReleased ∧
    (∀ b, ∀ s ∈ dataEffectAcquired b, s ∈ dataEffectReleased b) ∧
    (∀ b, SubKind.openProjectDoc ∉ authEffectAcquired b ∧
      SubKind.openProjectDoc ∉ dataEffectAcquired b) := by
  decide

/-- Claim C9: with a bootstrap credential provided, `initAuth` attempts it
first (and uses it when it succeeds); if it fails for any reason, `initAuth`
falls back to the anonymous sign-in of the `catch` block; and once an
identity exists, a missing profile document is replaced by the default one —
name `"User-" ++` the first four characters of the uid, role `GUEST`, and an
avatar URL derived from the uid. -/
theorem initAuth_fallback_and_default_profile (tok : Option String)
    (anonTryOk anonCatchOk : Bool) (uid : String) (t : Timestamp)
    (hprov : bootstrapProvided tok = true) :
    initAuth tok true anonTryOk anonCatchOk = AuthOutcome.customIdentity ∧
    initAuth tok false anonTryOk true = AuthOutcome.anonIdentity ∧
    ensureProfile uid none t =
      { uid := uid, name := "User-" ++ uid.take 4, role := "GUEST",
        avatar := "https://api.dicebear.com/7.x/avataaars/svg?seed=" ++ uid,
        joinedAt := some t } := by
  refine ⟨?_, ?_, rfl⟩
  · simp [initAuth, hprov]
  · simp [initAuth, hprov]

/-- Witness for C9 at a concrete provided token and uid. -/
theorem initAuth_fallback_and_default_profile_witness :
    initAuth (some "boot-token") true false false = AuthOutcome.customIdentity ∧
    initAuth (some "boot-token") false false true = AuthOutcome.anonIdentity ∧
    ensureProfile "abcd1234" none { seconds := 7 } =
      { uid := "abcd1234", name := "User-" ++ "abcd1234".take 4, role := "GUEST",
        avatar := "https://api.dicebear.com/7.x/avataaars/svg?seed=" ++ "abcd1234",
        joinedAt := some { seconds := 7 } } :=
  initAuth_fallback_and_default_profile (some "boot-token") false false
    "abcd1234" { seconds := 7 } (by decide)

/-- Claim C10: `handleAddFile` silently does nothing — the store is unchanged
and no alert is raised — whenever no project is currently selected or no
session identity exists, even though the target `projectId` is passed
explicitly as a parameter. -/
theorem handleAddFile_silent_noop (sel : Option Project) (user : Option UserAuth)
    (projectId : String) (fd : FileData) (ty : ListName) (fileId isoNow : String)
    (t : Timestamp) (writeOk : Bool) (store : List Project)
    (h : sel = none ∨ user = none) :
    handleAddFile sel user projectId fd ty fileId isoNow t writeOk store
      = (store, none) := by
  cases h with
  | inl h => cases user <;> simp [h, handleAddFile]
  | inr h => cases sel <;> simp [h, handleAddFile]

/-- Witness for C10: no selected project, identity present. -/
theorem handleAddFile_silent_noop_witness :
    handleAddFile none (some uA) "p1" fdF ListName.inputs "fid" "t0"
      { seconds := 9 } true [projP] = ([projP], none) :=
  handleAddFile_silent_noop none (some uA) "p1" fdF ListName.inputs "fid" "t0"
    { seconds := 9 } true [projP] (Or.inl rfl)

/-- A finite sequence of `setStatus` calls on one project from one signed-in
client, each call carrying its new status and server time, applied in order. -/
def applyStatusCalls (user : Option UserAuth) (projectId : String)
    (calls : List (String × Timestamp)) (store : List Project) : List Project :=
  calls.foldl (fun s c => handleUpdateStatus user projectId c.1 c.2 s) store

/-- One `handleUpdateStatus` call leaves every matching document with exactly
the written status. -/
theorem handleUpdateStatus_sets_status (u : UserAuth) (projectId newStatus : String)
    (t : Timestamp) (store : List Project) :
    ∀ q ∈ handleUpdateStatus (some u) projectId newStatus t store,
      q.id = projectId → q.status = newStatus := by
  intro q hq hid
  simp only [handleUpdateStatus, List.mem_map] at hq
  obtain ⟨r, _, hrq⟩ := hq
  by_cases hc : (r.id == projectId) = true
  · rw [if_pos hc] at hrq
    rw [← hrq]
  · rw [if_neg hc] at hrq
    subst hrq
    exact absurd (beq_iff_eq.mpr hid) hc

/-- Claim C4: for every project and every finite sequence of `setStatus`
calls on it, the final status of every matching document equals the argument
of the last call, whatever the intermediate values were — no transition table
restricts which status may follow which. -/
theorem setStatus_last_call_wins (u : UserAuth) (projectId : String)
    (calls : List (String × Timestamp)) (lastCall : String × Timestamp)
    (store : List Project) :
    ∀ q ∈ applyStatusCalls (some u) projectId (calls ++ [lastCall]) store,
      q.id = projectId → q.status = lastCall.1 := by
  intro q hq hid
  rw [applyStatusCalls, List.foldl_append, List.foldl_cons, List.foldl_nil] at hq
  exact handleUpdateStatus_sets_status u projectId lastCall.1 lastCall.2 _ q hq hid

/-- The document `p1` after the C4 witness run: first set to `in_progress`,
then to `completed`. -/
def c4Final : Project :=
  { projP with status := "completed", updatedAt := some { seconds := 6 } }

/-- Witness for C4: a concrete two-call run on `p1` ends with the last call's
status, `completed`, even though `completed` is reached from `in_progress`
with no transition table consulted. -/
theorem setStatus_last_call_wins_witness : c4Final.status = "completed" :=
  setStatus_last_call_wins uA "p1" [("in_progress", { seconds := 5 })]
    ("completed", { seconds := 6 }) [projP] c4Final (by decide) rfl

/-- Membership through one insertion step. -/
theorem mem_insertByKeyDesc {x p : Project} :
    ∀ {l : List Project}, x ∈ insertByKeyDesc p l ↔ x = p ∨ x ∈ l := by
  intro l
  induction l with
  | nil => simp [insertByKeyDesc]
  | cons q qs ih =>
    by_cases h : snapKey q < snapKey p
    · simp [insertByKeyDesc, h]
    · simp only [insertByKeyDesc, if_neg h, List.mem_cons, ih]
      tauto

/-- One insertion step preserves descending sortedness. -/
theorem sortedDesc_insertByKeyDesc {p : Project} :
    ∀ {l : List Project}, SortedDesc l → SortedDesc (insertByKeyDesc p l) := by
  intro l
  induction l with
  | nil => intro _; simp [insertByKeyDesc, SortedDesc]
  | cons q qs ih =>
    intro h
    rw [SortedDesc, List.pairwise_cons] at h
    by_cases hk : snapKey q < snapKey p
    · rw [insertByKeyDesc, if_pos hk, SortedDesc, List.pairwise_cons]
      refine ⟨?_, ?_⟩
      · intro b hb
        rcases List.mem_cons.mp hb with hb | hb
        · exact hb ▸ le_of_lt hk
        · exact le_trans (h.1 b hb) (le_of_lt hk)
      · rw [List.pairwise_cons]
        exact ⟨h.1, h.2⟩
    · rw [insertByKeyDesc, if_neg hk, SortedDesc, List.pairwise_cons]
      refine ⟨?_, ih h.2⟩
      intro b hb
      rcases mem_insertByKeyDesc.mp hb with hb | hb
      · exact hb ▸ le_of_not_lt hk
      · exact h.1 b hb

/-- The refresh fold keeps the accumulator sorted. -/
theorem sortedDesc_refreshAux :
    ∀ (docs acc : List Project), SortedDesc acc →
      SortedDesc (docs.foldl (fun a p => insertByKeyDesc p a) acc)
  | [], _, h => h
  | _ :: ds, _, h =>
      sortedDesc_refreshAux ds _ (sortedDesc_insertByKeyDesc h)

/-- Every element of the refresh fold's result comes from the input docs or
the accumulator. -/
theorem mem_refreshAux {x : Project} :
    ∀ (docs acc : List Project),
      x ∈ docs.foldl (fun a p => insertByKeyDesc p a) acc → x ∈ docs ∨ x ∈ acc
  | [], _, h => Or.inr h
  | d :: ds, _acc, h => by
      rcases mem_refreshAux ds (insertByKeyDesc d _acc) h with h1 | h2
      · exact Or.inl (List.mem_cons_of_mem d h1)
      · rcases mem_insertByKeyDesc.mp h2 with h2 | h2
        · exact Or.inl (h2 ▸ List.mem_cons_self d ds)
        · exact Or.inr h2

/-- Claim C6 (amended): on every snapshot refresh the local projects list is
sorted descending by `snapKey` (the `updatedAt?.seconds || 0` key), and —
provided every present `updatedAt` in the snapshot has positive `seconds` —
every document missing an `updatedAt` sorts after all documents that have
one.  (A present timestamp whose `seconds` is `0` or negative shares or
undercuts the missing documents' key `0`, which is what the counterexample
exploits.) -/
theorem refreshProjects_sorted_missing_last (docs : List Project)
    (hpos : ∀ p ∈ docs, p.updatedAt ≠ none → 0 < snapKey p) :
    SortedDesc (refreshProjects docs) ∧
    (refreshProjects docs).Pairwise
      (fun a b => b.updatedAt ≠ none → a.updatedAt ≠ none) := by
  have hs : SortedDesc (refreshProjects docs) :=
    sortedDesc_refreshAux docs [] (List.Pairwise.nil)
  refine ⟨hs, ?_⟩
  rw [SortedDesc] at hs
  refine hs.imp_of_mem ?_
  intro a b ha hb hle hbsome
  have hb' : b ∈ docs := by
    rcases mem_refreshAux docs [] hb with h | h
    · exact h
    · cases h
  have hbpos : 0 < snapKey b := hpos b hb' hbsome
  intro hanone
  have : snapKey a = 0 := by simp [snapKey, hanone]
  omega

/-- Witness for C6's amended theorem: both demo documents carry positive
timestamps, so the refreshed list is sorted and no missing-timestamp document
precedes one that has a timestamp. -/
theorem refreshProjects_sorted_missing_last_witness :
    SortedDesc (refreshProjects [c7P2, c7P1]) ∧
    (refreshProjects [c7P2, c7P1]).Pairwise
      (fun a b => b.updatedAt ≠ none → a.updatedAt ≠ none) :=
  refreshProjects_sorted_missing_last [c7P2, c7P1] (by decide)

/-- A document with no `updatedAt`. -/
def c6A : Project :=
  { id := "a", title := "A", description := "", status := "pending",
    createdBy := "u1", createdAt := none, updatedAt := none,
    inputs := [], outputs := [], comments := [] }

/-- A document whose `updatedAt` exists with `seconds = 0` (the epoch). -/
def c6B : Project :=
  { id := "b", title := "B", description := "", status := "pending",
    createdBy := "u2", createdAt := some { seconds := 0 },
    updatedAt := some { seconds := 0 },
    inputs := [], outputs := [], comments := [] }

/-- Claim C6, counterexample to the claim as stated: in the snapshot
`[c6A, c6B]`, document `c6A` has no `updatedAt` while `c6B` has one (with
`seconds = 0`); the comparator gives both the key `0`, so the stable sort
leaves `c6A` — the document missing a timestamp — *before* `c6B`, which has
one. -/
theorem missing_timestamp_sorts_first :
    c6A.updatedAt = none ∧ c6B.updatedAt = some { seconds := 0 } ∧
    refreshProjects [c6A, c6B] = [c6A, c6B] := by
  decide

/-- The in-memory mirror of the store that the core's operations act on: the
projects collection and the users collection. -/
structure SysState where
  projects : List Project
  users : List Profile
deriving DecidableEq, Repr

/-- One invocation of one of the core's own operations, carrying the
client-side context the source reads at call time: the signed-in user, the
invoking client's cached `selectedProject` (for a file append), and the
environment-supplied id, time and transport values. -/
inductive CoreOp where
  | createOp (user : Option UserAuth) (data : CreateData) (newId : String) (t : Timestamp)
  | statusOp (user : Option UserAuth) (projectId newStatus : String) (t : Timestamp)
  | addFileOp (sel : Option Project) (user : Option UserAuth) (projectId : String)
      (fd : FileData) (ty : ListName) (fileId isoNow : String) (t : Timestamp)
      (writeOk : Bool)
  | profileOp (user : Option UserAuth) (name role : String)
deriving DecidableEq, Repr

/-- Apply one operation through the corresponding handler. -/
def applyOp : CoreOp → SysState → SysState
  | CoreOp.createOp u d nid t, st =>
      { st with projects := handleCreateProject u d nid t st.projects }
  | CoreOp.statusOp u pid s t, st =>
      { st with projects := handleUpdateStatus u pid s t st.projects }
  | CoreOp.addFileOp sel u pid fd ty fid iso t ok, st =>
      { st with projects := (handleAddFile sel u pid fd ty fid iso t ok st.projects).1 }
  | CoreOp.profileOp u n r, st =>
      { st with users := handleUpdateProfile u n r st.users }

/-- Apply a finite sequence of operations in order. -/
def applyOps (ops : List CoreOp) (st : SysState) : SysState :=
  ops.foldl (fun s op => applyOp op s) st

/-- A file-append operation is fresh for the current store when the cached
list it is about to write from agrees with the stored target document's list
— i.e. the invoking client's `selectedProject` is not stale. -/
def cacheFresh (store : List Project) : CoreOp → Bool
  | CoreOp.addFileOp sel _ pid _ ty _ _ _ _ =>
      match sel with
      | none => true
      | some s => store.all (fun q =>
          (q.id != pid) || decide (s.getList ty = q.getList ty))
  | _ => true

/-- A run in which every operation is fresh for the store state at which it
is applied. -/
def freshRun : List CoreOp → SysState → Bool
  | [], _ => true
  | op :: rest, st => cacheFresh st.projects op && freshRun rest (applyOp op st)

/-- Placeholder document used to read positions past the end of a store
(both of its lists are empty). -/
def emptyProject : Project :=
  { id := "", title := "", description := "", status := "", createdBy := "",
    createdAt := none, updatedAt := none, inputs := [], outputs := [], comments := [] }

/-- Length of the `inputs` list of the document at position `i` (0 past the
end). -/
def inputsLenAt (store : List Project) (i : Nat) : Nat :=
  ((store.getD i emptyProject).inputs).length

/-- Length of the `outputs` list of the document at position `i` (0 past the
end). -/
def outputsLenAt (store : List Project) (i : Nat) : Nat :=
  ((store.getD i emptyProject).outputs).length

/-- Positionwise: no document's `inputs` or `outputs` list got shorter. -/
def NoShrink (a b : List Project) : Prop :=
  ∀ i : Nat, inputsLenAt a i ≤ inputsLenAt b i ∧ outputsLenAt a i ≤ outputsLenAt b i

/-- `NoShrink` is reflexive. -/
theorem noShrink_rfl (a : List Project) : NoShrink a a :=
  fun _ => ⟨le_refl _, le_refl _⟩

/-- `NoShrink` is transitive. -/
theorem noShrink_trans {a b c : List Project} (h1 : NoShrink a b)
    (h2 : NoShrink b c) : NoShrink a c :=
  fun i => ⟨le_trans (h1 i).1 (h2 i).1, le_trans (h1 i).2 (h2 i).2⟩

/-- Appending documents at the end never shrinks any position. -/
theorem noShrink_append :
    ∀ (a ext : List Project), NoShrink a (a ++ ext)
  | [], ext => fun i => by
      refine ⟨?_, ?_⟩ <;> simp [inputsLenAt, outputsLenAt, emptyProject]
  | hd :: tl, ext => fun i => by
      cases i with
      | zero => exact ⟨le_refl _, le_refl _⟩
      | succ n =>
        have := noShrink_append tl ext n
        simpa [inputsLenAt, outputsLenAt] using this

/-- A map whose function never shortens either list never shrinks any
position. -/
theorem noShrink_map (f : Project → Project) :
    ∀ (l : List Project),
      (∀ p ∈ l, p.inputs.length ≤ (f p).inputs.length) →
      (∀ p ∈ l, p.outputs.length ≤ (f p).outputs.length) →
      NoShrink l (l.map f)
  | [], _, _ => fun _ => ⟨le_refl _, le_refl _⟩
  | hd :: tl, hin, hout => fun i => by
      cases i with
      | zero =>
        refine ⟨?_, ?_⟩
        · simpa [inputsLenAt] using hin hd (List.mem_cons_self hd tl)
        · simpa [outputsLenAt] using hout hd (List.mem_cons_self hd tl)
      | succ n =>
        have ih := noShrink_map f tl
          (fun p hp => hin p (List.mem_cons_of_mem hd hp))
          (fun p hp => hout p (List.mem_cons_of_mem hd hp))
        simpa [inputsLenAt, outputsLenAt] using ih n

/-- The per-document update of a fresh file append never shortens either
list: on the target document it rewrites the target list to the stored list
plus one new attachment and leaves the other list alone. -/
theorem addFile_step_no_shrink (s p : Project) (pid : String) (ty : ListName)
    (nf : FileAttachment) (t : Timestamp)
    (hfresh : ((p.id != pid) || decide (s.getList ty = p.getList ty)) = true) :
    p.inputs.length ≤
      (if p.id == pid then (p.setList ty (s.getList ty ++ [nf])).touch t
       else p).inputs.length ∧
    p.outputs.length ≤
      (if p.id == pid then (p.setList ty (s.getList ty ++ [nf])).touch t
       else p).outputs.length := by
  by_cases hc : (p.id == pid) = true
  · have hne : (p.id != pid) = false := by simp [bne, hc]
    rw [hne, Bool.false_or] at hfresh
    have heq : s.getList ty = p.getList ty := of_decide_eq_true hfresh
    rw [if_pos hc]
    cases ty with
    | inputs =>
      refine ⟨?_, le_refl _⟩
      show p.inputs.length ≤ (s.getList ListName.inputs ++ [nf]).length
      rw [heq]
      show p.inputs.length ≤ (p.inputs ++ [nf]).length
      rw [List.length_append]
      omega
    | outputs =>
      refine ⟨le_refl _, ?_⟩
      show p.outputs.length ≤ (s.getList ListName.outputs ++ [nf]).length
      rw [heq]
      show p.outputs.length ≤ (p.outputs ++ [nf]).length
      rw [List.length_append]
      omega
  · rw [if_neg hc]
    exact ⟨le_refl _, le_refl _⟩

/-- One fresh core operation never shrinks any document's lists. -/
theorem applyOp_no_shrink (op : CoreOp) (st : SysState)
    (h : cacheFresh st.projects op = true) :
    NoShrink st.projects (applyOp op st).projects := by
  cases op with
  | createOp u d nid t =>
    cases u with
    | none => exact noShrink_rfl _
    | some u0 => exact noShrink_append _ _
  | statusOp u pid s t =>
    cases u with
    | none => exact noShrink_rfl _
    | some u0 =>
      refine noShrink_map _ _ (fun p _ => ?_) (fun p _ => ?_) <;>
        · by_cases hc : (p.id == pid) = true <;> simp [hc]
  | addFileOp sel u pid fd ty fid iso t ok =>
    cases sel with
    | none =>
      cases u with
      | none => exact noShrink_rfl _
      | some u0 => exact noShrink_rfl _
    | some s =>
      cases u with
      | none => exact noShrink_rfl _
      | some u0 =>
        cases ok with
        | false => exact noShrink_rfl _
        | true =>
          have hall := List.all_eq_true.mp h
          exact noShrink_map _ _
            (fun p hp => (addFile_step_no_shrink s p pid ty _ t (hall p hp)).1)
            (fun p hp => (addFile_step_no_shrink s p pid ty _ t (hall p hp)).2)
  | profileOp u n r => exact noShrink_rfl _

/-- Claim C5 (amended): across every finite sequence of the core's own
operations (`createProject`, `setStatus`, `appendFile`, `updateProfile`) in
which every file append is fresh — the invoking client's cached list equals
the stored target document's list at application time — the lengths of every
project's `inputs` and `outputs` lists never decrease.  (Without the
freshness proviso an append from a stale cache can shrink a list, as the
counterexample shows.) -/
theorem coreOps_never_shrink (ops : List CoreOp) (st : SysState)
    (h : freshRun ops st = true) :
    NoShrink st.projects (applyOps ops st).projects := by
  induction ops generalizing st with
  | nil => exact noShrink_rfl _
  | cons op rest ih =>
    simp only [freshRun, Bool.and_eq_true] at h
    exact noShrink_trans (applyOp_no_shrink op st h.1) (ih (applyOp op st) h.2)

/-- The empty starting state for the operation-sequence demos. -/
def c5DemoSt : SysState := { projects := [], users := [] }

/-- A fresh run: create `p1`, then append `f` from a cache that matches the
store. -/
def c5DemoOps : List CoreOp :=
  [CoreOp.createOp (some uA) { title := "T", description := "D" } "p1" { seconds := 1 },
   CoreOp.addFileOp (some projP) (some uA) "p1" fdF ListName.inputs "file-f" "t1"
     { seconds := 2 } true]

/-- Witness for C5's amended theorem on a concrete fresh run. -/
theorem coreOps_never_shrink_witness :
    freshRun c5DemoOps c5DemoSt = true ∧
    NoShrink c5DemoSt.projects (applyOps c5DemoOps c5DemoSt).projects :=
  ⟨by decide, coreOps_never_shrink c5DemoOps c5DemoSt (by decide)⟩

/-- The stored document `p1` after client A's first append — the copy client
B holds when it opens the project from the refreshed projects list. -/
def projP1 : Project :=
  { projP with
    inputs := [mkNewFile fdF "file-f" "u1" "t1"]
    updatedAt := some { seconds := 2 } }

/-- Create `p1`; client A (cache `projP`, `inputs = []`) appends `f`; client
B (cache `projP1`, `inputs = [f]`) appends `g`.  The stored `inputs` now has
length 2. -/
def c5RaceOps3 : List CoreOp :=
  [CoreOp.createOp (some uA) { title := "T", description := "D" } "p1" { seconds := 1 },
   CoreOp.addFileOp (some projP) (some uA) "p1" fdF ListName.inputs "file-f" "t1"
     { seconds := 2 } true,
   CoreOp.addFileOp (some projP1) (some uB) "p1" fdG ListName.inputs "file-g" "t2"
     { seconds := 3 } true]

/-- Client A appends `h` still holding its original stale cache `projP`
(`inputs = []`) — the source never refreshes `selectedProject` after a
write. -/
def c5RaceOp4 : CoreOp :=
  CoreOp.addFileOp (some projP) (some uA) "p1" fdH ListName.inputs "file-h" "t3"
    { seconds := 4 } true

/-- Claim C5, counterexample to the claim as stated: a sequence consisting
only of the core's own operations takes `p1`'s `inputs` length from 2 down to
1 — the fourth operation's whole-list write, built from a stale cached copy,
discards both stored attachments and leaves only its own. -/
theorem inputs_length_can_shrink :
    (applyOps c5RaceOps3 c5DemoSt).projects.map (fun p => p.inputs.length) = [2] ∧
    (applyOps (c5RaceOps3 ++ [c5RaceOp4]) c5DemoSt).projects.map
      (fun p => p.inputs.length) = [1] := by
  decide
